import Mathlib

/-!
Verification of the Thinkerbell semantic classification backend
(`backend_server.py`, class `SemanticBrain`).

The embedding models the decision logic of the pipeline:

* `_split_sentences`  : regex split on `[.!?]+\s+` followed by strip and a
  length filter (`splitSentences` below, over `List Char` / `String`);
* `_fallback_classification` : keyword routing with Python substring
  containment on the lowercased sentence (`fallbackClassification`);
* `_classify_sentence` : argmax over per-category similarity scores with a
  confidence threshold (`classifySentenceSim`, and `classifySentenceR` for
  the layer that computes real cosine similarities from embedding vectors);
* `classify_text`     : orchestration, including the Python truthiness
  resolution `confidence_threshold or 0.3` (`classifyText`, `effThreshold`);
* `_generate_analytics` : distribution, confidence statistics, dominant
  category and high-confidence count (`generateAnalytics`).

Python `float` values are modelled as exact rationals; `round(x, n)` is
modelled as round-half-to-even on rationals (`roundHalfEven`).  Python
`dict`s (insertion ordered, unique keys) are modelled as ordered
association lists.  Wall-clock `processing_time_ms` is not modelled.
-/

namespace Thinkerbell

/-- The four fixed categories, in the enumeration order used by every
dict literal in the source (`Hunch, Wisdom, Nudge, Spell`). -/
inductive Category where
  | Hunch
  | Wisdom
  | Nudge
  | Spell
deriving DecidableEq, Repr

/-- Characters matched by the regex class `[.!?]` in `_split_sentences`. -/
def isEnder (c : Char) : Bool :=
  c == '.' || c == '!' || c == '?'

/-- Characters matched by the regex class `\s` (Python, ASCII range). -/
def isPySpace (c : Char) : Bool :=
  c == ' ' || c == '\t' || c == '\n' || c == '\r' || c == '\x0b' || c == '\x0c'

/-- One left-to-right pass of the regex split on `[.!?]+\s+`: a separator is
a maximal run of sentence enders immediately followed by at least one
whitespace character; the matched separator (enders plus the whitespace run)
is removed, everything else is accumulated into the current fragment. -/
def goSplit (cs : List Char) (cur : List Char) : List (List Char) :=
  match cs with
  | [] => [cur.reverse]
  | c :: rest =>
    if isEnder c then
      match h : rest.dropWhile isEnder with
      | [] => [cur.reverse ++ c :: rest.takeWhile isEnder]
      | d :: ds =>
        if isPySpace d then
          cur.reverse :: goSplit ((d :: ds).dropWhile isPySpace) []
        else
          goSplit (d :: ds) ((rest.takeWhile isEnder).reverse ++ c :: cur)
    else
      goSplit rest (c :: cur)
termination_by cs.length
decreasing_by
all_goals
  have key : ∀ (p : Char → Bool) (l : List Char), (l.dropWhile p).length ≤ l.length := by
    intro p l
    induction l with
    | nil => simp [List.dropWhile]
    | cons a t ih =>
      simp only [List.dropWhile]
      cases p a
      · simp
      · simpa using Nat.le_succ_of_le ih
  simp only [List.length_cons]
  first
  | (have h1 := key isPySpace (d :: ds)
     have h2 := key isEnder rest
     rw [h] at h2
     simp only [List.length_cons] at h1 h2 ⊢
     omega)
  | (have h2 := key isEnder rest
     rw [h] at h2
     simp only [List.length_cons] at h2 ⊢
     omega)
  | omega

/-- The list of fragments produced by the regex split of `_split_sentences`. -/
def rawFragments (text : String) : List (List Char) :=
  goSplit text.data []

/-- Python `str.strip()` (ASCII whitespace). -/
def pyStrip (l : List Char) : List Char :=
  ((l.dropWhile isPySpace).reverse.dropWhile isPySpace).reverse

/-- Model of `_split_sentences` (lines 196-210): split on the regex, strip each
fragment, and keep exactly the fragments whose stripped length is
strictly greater than 10. -/
def splitSentences (text : String) : List String :=
  (((rawFragments text).map fun f => String.mk (pyStrip f)).filter
    fun s => 10 < s.length)

/-- Python `str.lower()` (ASCII model). -/
def pyLower (s : String) : String :=
  String.mk (s.data.map Char.toLower)

/-- Does `needle` occur at the head of `hay`. -/
def headMatch : List Char → List Char → Bool
  | [], _ => true
  | _ :: _, [] => false
  | a :: as, b :: bs => a == b && headMatch as bs

/-- Python substring containment `needle in hay` on character lists. -/
def listContains : List Char → List Char → Bool
  | [], needle => needle.isEmpty
  | h :: t, needle => headMatch needle (h :: t) || listContains t needle

/-- Keyword list of the Wisdom branch of `_fallback_classification`
(line 281). -/
def wisdomKeywords : List String :=
  ["data", "research", "study", "evidence", "statistics", "shows", "analysis"]

/-- Keyword list of the Nudge branch of `_fallback_classification`
(line 284). -/
def nudgeKeywords : List String :=
  ["should", "recommend", "suggest", "implement", "action", "do", "try"]

/-- Keyword list of the Spell branch of `_fallback_classification`
(line 287). -/
def spellKeywords : List String :=
  ["imagine", "creative", "innovative", "magical", "surprising", "extraordinary"]

/-- Python `any(word in lower_sentence for word in kws)`. -/
def anyKeyword (kws : List String) (lower : String) : Bool :=
  kws.any fun w => listContains lower.data w.data

/-- The per-sentence decision of `_fallback_classification` (lines 277-292):
priority order Wisdom, Nudge, Spell over substring containment in the
lowercased sentence, with the fixed confidences 0.7, 0.6, 0.6 and the
default Hunch with 0.4. -/
def fallbackClassifySentence (s : String) : Category × ℚ :=
  let ls := pyLower s
  if anyKeyword wisdomKeywords ls then (Category.Wisdom, 0.7)
  else if anyKeyword nudgeKeywords ls then (Category.Nudge, 0.6)
  else if anyKeyword spellKeywords ls then (Category.Spell, 0.6)
  else (Category.Hunch, 0.4)

/-- Python `round` (half-to-even rounding) on an exact rational. -/
def roundHalfEven (q : ℚ) : ℤ :=
  let n := Rat.floor q
  let frac := q - (n : ℚ)
  if frac < 1/2 then n
  else if 1/2 < frac then n + 1
  else if n % 2 = 0 then n else n + 1

/-- Python `round(q, 1)`. -/
def round1 (q : ℚ) : ℚ :=
  (roundHalfEven (q * 10) : ℚ) / 10

/-- Python `round(q, 3)`. -/
def round3 (q : ℚ) : ℚ :=
  (roundHalfEven (q * 1000) : ℚ) / 1000

/-- One routed entry: the dict appended to `routed_content[category]`
(text, confidence, processing method). -/
structure Item where
  text : String
  confidence : ℚ
  processingMethod : String
deriving DecidableEq, Repr

/-- The `routed_content` value: a Python dict of category to item list, modelled as
an insertion-ordered association list with unique keys. -/
abbrev Routed := List (Category × List Item)

/-- Appending one item under a key, with Python dict semantics: an existing
key keeps its position, a new key is appended at the end. -/
def addItem : Routed → Category → Item → Routed
  | [], c, it => [(c, [it])]
  | (c', its) :: rest, c, it =>
    if c' = c then (c', its ++ [it]) :: rest else (c', its) :: addItem rest c it

/-- Total number of routed items (`total_items` in `_generate_analytics`). -/
def totalItems (rc : Routed) : Nat :=
  (rc.map fun e => e.2.length).sum

/-- One `distribution` entry: count and percentage. -/
structure CatDist where
  count : Nat
  percentage : ℚ
deriving DecidableEq, Repr

/-- One `confidence_stats` entry: average, max and min confidence. -/
structure CatConf where
  average : ℚ
  maxConf : ℚ
  minConf : ℚ
deriving DecidableEq, Repr

/-- The analytics dictionary built by `_generate_analytics` when there is
content (the `error` shape for an empty batch is modelled as `Option.none`
at the call sites). -/
structure Report where
  distribution : List (Category × CatDist)
  confidenceStats : List (Category × CatConf)
  dominantCategory : Category
  totalSentences : Nat
  highConfidenceItems : Nat
deriving DecidableEq, Repr

/-- Confidence statistics of one category (lines 233-241): rounded average,
max and min for a nonempty item list, an all-zero triple otherwise. -/
def confStatsOf (its : List Item) : CatConf :=
  match its.map fun it => it.confidence with
  | [] => ⟨0, 0, 0⟩
  | c :: cs =>
    ⟨round3 ((c :: cs).sum / ((c :: cs).length : ℚ)),
     round3 (cs.foldl max c), round3 (cs.foldl min c)⟩

/-- Python `max(distribution.keys(), key=lambda k: distribution[k]["count"])`
(lines 243-247): the first key, in dict order, whose count no later key
strictly exceeds; `Hunch` for an empty dict. -/
def dominantOf : List (Category × CatDist) → Category
  | [] => Category.Hunch
  | e :: es => (es.foldl (fun best x => if best.2.count < x.2.count then x else best) e).1

/-- Model of `_generate_analytics` (lines 212-263); `none` models the
`error: no content` report returned for an empty batch. -/
def generateAnalytics (rc : Routed) : Option Report :=
  let total := totalItems rc
  if total = 0 then none
  else
    let dist := rc.map fun e =>
      (e.1, CatDist.mk e.2.length (round1 ((e.2.length : ℚ) / (total : ℚ) * 100)))
    some
      { distribution := dist
        confidenceStats := rc.map fun e => (e.1, confStatsOf e.2)
        dominantCategory := dominantOf dist
        totalSentences := total
        highConfidenceItems :=
          (rc.map fun e => (e.2.filter fun it => (0.7:ℚ) < it.confidence).length).sum }

/-- The value returned by `classify_text` / `_fallback_classification`:
routed content plus analytics (`processing_time_ms` is wall-clock and not
modelled). -/
structure ClassifyResult where
  routedContent : Routed
  analytics : Option Report
deriving DecidableEq, Repr

/-- Seed dict of `_fallback_classification` (lines 265-306): keyword routing fills a dict
pre-seeded with all four categories in enumeration order. -/
def fallbackSeed : Routed :=
  [(Category.Hunch, []), (Category.Wisdom, []), (Category.Nudge, []), (Category.Spell, [])]

/-- The loop body of `_fallback_classification` (lines 273-298): skip
stripped sentences shorter than 10, otherwise classify by keywords and
append. -/
def fallbackStep (rc : Routed) (s : String) : Routed :=
  if (pyStrip s.data).length < 10 then rc
  else
    let cc := fallbackClassifySentence s
    addItem rc cc.1 ⟨String.mk (pyStrip s.data), cc.2, "keyword_fallback"⟩

/-- The whole `_fallback_classification` pipeline: split, route each
sentence by keywords into the pre-seeded dict, aggregate. -/
def fallbackClassification (text : String) : ClassifyResult :=
  let rc := (splitSentences text).foldl fallbackStep fallbackSeed
  ⟨rc, generateAnalytics rc⟩

/-- The key scan of `_classify_sentence` (line 183):
`max(similarities.keys(), key=lambda k: similarities[k])` over the dict
whose insertion order is Hunch, Wisdom, Nudge, Spell; Python `max` keeps
the first key attaining the maximum. -/
def bestCategory {α : Type} [LinearOrder α] (sims : Category → α) : Category :=
  [Category.Wisdom, Category.Nudge, Category.Spell].foldl
    (fun best c => if sims best < sims c then c else best) Category.Hunch

/-- The threshold decision of `_classify_sentence` (lines 183-190), as a
function of the per-category similarity scores: pick the best category and
its score, and force the category (not the score) to Hunch below the
threshold. -/
def classifySentenceSim {α : Type} [LinearOrder α] (sims : Category → α) (threshold : α) :
    Category × α :=
  let bc := bestCategory sims
  let bs := sims bc
  if bs < threshold then (Category.Hunch, bs) else (bc, bs)

/-- Model of `_classify_sentence` with the embedding-provider call abstracted as a
similarity oracle: a provider failure (the `except` branch, lines 192-194)
yields `(Hunch, 0.3)`; otherwise the threshold decision runs on the
computed similarities. -/
def classifySentenceE (prov : String → Except Unit (Category → ℚ)) (s : String) (t : ℚ) :
    Category × ℚ :=
  match prov s with
  | Except.error _ => (Category.Hunch, 0.3)
  | Except.ok sims => classifySentenceSim sims t

/-- Stable descending insertion by confidence (used to model the stable
Python `list.sort(key=confidence, reverse=True)` of lines 146-151). -/
def insertByConf (it : Item) : List Item → List Item
  | [] => [it]
  | x :: xs => if x.confidence < it.confidence then it :: x :: xs else x :: insertByConf it xs

/-- Stable sort by strictly descending confidence. -/
def sortByConfDesc (l : List Item) : List Item :=
  l.foldl (fun acc it => insertByConf it acc) []

/-- The similarity-mode body of `classify_text` (lines 127-162): split,
skip stripped sentences shorter than 10, classify each sentence, route into
an initially empty dict, sort each bucket by descending confidence, and
aggregate. -/
def classifyTextML (prov : String → Except Unit (Category → ℚ)) (text : String) (t : ℚ) :
    ClassifyResult :=
  let rc0 := (splitSentences text).foldl
    (fun rc s =>
      if (pyStrip s.data).length < 10 then rc
      else
        let cc := classifySentenceE prov s t
        addItem rc cc.1 ⟨String.mk (pyStrip s.data), cc.2, "sentence_transformer"⟩)
    []
  let rc := rc0.map fun e => (e.1, sortByConfDesc e.2)
  ⟨rc, generateAnalytics rc⟩

/-- The per-category sentence count of a routed dict, as read off the
unique entry of the category (spec side: the tally the dominant-category
rule talks about). -/
def countIn (rc : Routed) (c : Category) : Nat :=
  ((rc.filter fun e => e.1 = c).map fun e => e.2.length).sum

/-- Modelled from the spec: the highest per-category count. -/
def maxCount (count : Category → Nat) : Nat :=
  max (max (count Category.Hunch) (count Category.Wisdom))
    (max (count Category.Nudge) (count Category.Spell))

/-- Modelled from the spec: the first category in the fixed enumeration
order `Hunch, Wisdom, Nudge, Spell` whose count is the highest count
(the tie-break rule as the spec states it). -/
def enumFirstMaxCat (count : Category → Nat) : Category :=
  if count Category.Hunch = maxCount count then Category.Hunch
  else if count Category.Wisdom = maxCount count then Category.Wisdom
  else if count Category.Nudge = maxCount count then Category.Nudge
  else Category.Spell

/-- Modelled from the spec: the maximum anchor similarity of a sentence
(the mathematical maximum over the four categories). -/
def simMax {α : Type} [LinearOrder α] (sims : Category → α) : α :=
  max (max (sims Category.Hunch) (sims Category.Wisdom))
    (max (sims Category.Nudge) (sims Category.Spell))

/-- Model of `threshold = confidence_threshold or self.confidence_threshold`
(line 125): Python truthiness replaces both `None` and `0.0` by the default
`0.3`; every other float, in range or not, is used unchanged. -/
def effThreshold (ct : Option ℚ) : ℚ :=
  match ct with
  | none => 0.3
  | some t => if t = 0 then 0.3 else t

/-- The initialization outcome (`self.model` absent or loaded); in the
loaded state the embedding provider plus anchor similarities are abstracted
as a similarity oracle. -/
inductive BrainMode where
  | fallbackMode
  | mlMode (prov : String → Except Unit (Category → ℚ))

/-- Model of `classify_text` (lines 118-162): fallback when no model is loaded
(ignoring the threshold argument), otherwise the similarity pipeline with
the truthiness-resolved threshold. -/
def classifyText (mode : BrainMode) (text : String) (ct : Option ℚ) : ClassifyResult :=
  match mode with
  | BrainMode.fallbackMode => fallbackClassification text
  | BrainMode.mlMode prov => classifyTextML prov text (effThreshold ct)

/-- Dot product of two real vectors (trailing entries of the longer vector
are ignored, as in a componentwise zip). -/
noncomputable def dotR : List ℝ → List ℝ → ℝ
  | x :: xs, y :: ys => x * y + dotR xs ys
  | _, _ => 0

/-- Model of `sklearn.metrics.pairwise.cosine_similarity` of two vectors:
`dot(u, v) / (norm(u) * norm(v))` (division by a zero norm is the
zero-result convention). -/
noncomputable def cosineSim (u v : List ℝ) : ℝ :=
  dotR u v / (Real.sqrt (dotR u u) * Real.sqrt (dotR v v))

/-- Model of `_classify_sentence` (lines 164-194) with the raw embedding provider:
`model.encode` may fail (modelled as `Except`), its failure is caught and
degraded to `(Hunch, 0.3)`; otherwise cosine similarities against the four
anchor embeddings feed the threshold decision. -/
noncomputable def classifySentenceR (prov : String → Except Unit (List ℝ))
    (anchors : Category → List ℝ) (s : String) (t : ℝ) : Category × ℝ :=
  match prov s with
  | Except.error _ => (Category.Hunch, 0.3)
  | Except.ok emb => classifySentenceSim (fun c => cosineSim emb (anchors c)) t

/-- The input of the fallback-mode scenario in the spec. -/
def c1Text : String :=
  "The data clearly shows improvement. We should implement this immediately. Imagine a magical new campaign."

section ArgmaxLemmas

variable {α : Type} [LinearOrder α]

/-- The scanning step of Python `max`. -/
def maxStep (sims : Category → α) (best c : Category) : Category :=
  if sims best < sims c then c else best

theorem bestCategory_eq_foldl (sims : Category → α) :
    bestCategory sims =
      [Category.Wisdom, Category.Nudge, Category.Spell].foldl (maxStep sims) Category.Hunch := rfl

theorem sims_init_le_foldl (sims : Category → α) :
    ∀ (l : List Category) (b : Category), sims b ≤ sims (l.foldl (maxStep sims) b) := by
  intro l
  induction l with
  | nil => intro b; exact le_refl _
  | cons c t ih =>
    intro b
    refine le_trans ?_ (ih (maxStep sims b c))
    unfold maxStep
    by_cases h : sims b < sims c
    · rw [if_pos h]; exact le_of_lt h
    · rw [if_neg h]

theorem sims_mem_le_foldl (sims : Category → α) :
    ∀ (l : List Category) (b : Category), ∀ c ∈ l, sims c ≤ sims (l.foldl (maxStep sims) b) := by
  intro l
  induction l with
  | nil => intro b c hc; cases hc
  | cons d t ih =>
    intro b c hc
    rcases List.mem_cons.mp hc with rfl | hc
    · refine le_trans ?_ (sims_init_le_foldl sims t (maxStep sims b c))
      unfold maxStep
      by_cases h : sims b < sims c
      · rw [if_pos h]
      · rw [if_neg h]; exact le_of_not_lt h
    · exact ih (maxStep sims b d) c hc

theorem sims_le_best (sims : Category → α) (c : Category) :
    sims c ≤ sims (bestCategory sims) := by
  rw [bestCategory_eq_foldl]
  cases c
  · exact sims_init_le_foldl sims _ _
  · exact sims_mem_le_foldl sims _ _ _ (by simp)
  · exact sims_mem_le_foldl sims _ _ _ (by simp)
  · exact sims_mem_le_foldl sims _ _ _ (by simp)

theorem sims_any_le_simMax (sims : Category → α) (c : Category) :
    sims c ≤ simMax sims := by
  cases c <;> simp [simMax, le_max_iff, le_refl]

theorem sims_best_le_simMax (sims : Category → α) :
    sims (bestCategory sims) ≤ simMax sims :=
  sims_any_le_simMax sims (bestCategory sims)

/-- The first-maximum scan of line 183 attains the mathematical maximum of
the four similarity scores. -/
theorem best_attains_simMax (sims : Category → α) :
    sims (bestCategory sims) = simMax sims := by
  refine le_antisymm (sims_best_le_simMax sims) ?_
  have h1 := sims_le_best sims Category.Hunch
  have h2 := sims_le_best sims Category.Wisdom
  have h3 := sims_le_best sims Category.Nudge
  have h4 := sims_le_best sims Category.Spell
  exact max_le (max_le h1 h2) (max_le h3 h4)

end ArgmaxLemmas

/-- Claim C2: in similarity mode, whenever the maximum anchor similarity is
strictly below the threshold, the classifier returns category `Hunch`
together with the unchanged maximum-similarity score as the confidence. -/
theorem c2_low_similarity_forces_hunch {α : Type} [LinearOrder α]
    (sims : Category → α) (t : α) (h : simMax sims < t) :
    classifySentenceSim sims t = (Category.Hunch, simMax sims) := by
  simp only [classifySentenceSim]
  rw [best_attains_simMax sims, if_pos h]

/-- Witness for C2: the spec scenario, a sentence scoring 0.65 against
Wisdom (and lower everywhere else) with threshold 0.7 yields
`(Hunch, 0.65)`. -/
theorem c2_low_similarity_forces_hunch_witness :
    simMax (fun c : Category => match c with | Category.Wisdom => (0.65:ℚ) | _ => 0.1) = 0.65 ∧
    simMax (fun c : Category => match c with | Category.Wisdom => (0.65:ℚ) | _ => 0.1) < 0.7 ∧
    classifySentenceSim
        (fun c : Category => match c with | Category.Wisdom => (0.65:ℚ) | _ => 0.1) 0.7 =
      (Category.Hunch,
        simMax (fun c : Category => match c with | Category.Wisdom => (0.65:ℚ) | _ => 0.1)) :=
  ⟨by with_unfolding_all decide, by with_unfolding_all decide,
    c2_low_similarity_forces_hunch _ _ (by with_unfolding_all decide)⟩

/-- Claim C8: for a fixed similarity assignment, raising the threshold can
only move the per-sentence result toward `Hunch`: a non-Hunch result at the
higher threshold is returned identically at the lower one, and a `Hunch`
result at the lower threshold stays `Hunch` at the higher one. -/
theorem c8_threshold_monotone {α : Type} [LinearOrder α]
    (sims : Category → α) (t1 t2 : α) (h : t1 ≤ t2) :
    ((classifySentenceSim sims t2).1 ≠ Category.Hunch →
      (classifySentenceSim sims t1).1 = (classifySentenceSim sims t2).1) ∧
    ((classifySentenceSim sims t1).1 = Category.Hunch →
      (classifySentenceSim sims t2).1 = Category.Hunch) := by
  unfold classifySentenceSim
  by_cases h1 : sims (bestCategory sims) < t1 <;>
    by_cases h2 : sims (bestCategory sims) < t2
  · simp [h1, h2]
  · exact absurd (lt_of_lt_of_le h1 h) h2
  · simp [h1, h2]
  · simp [h1, h2]

/-- Witness for C8: a concrete similarity assignment and threshold pair
0.5 ≤ 0.6 on which a Wisdom match at the higher threshold is preserved at
the lower one. -/
theorem c8_threshold_monotone_witness :
    ((1:ℚ)/2 ≤ 3/5) ∧
    (((classifySentenceSim
          (fun c : Category => match c with | Category.Wisdom => (0.65:ℚ) | _ => 0.2)
          (3/5)).1 ≠ Category.Hunch →
      (classifySentenceSim
          (fun c : Category => match c with | Category.Wisdom => (0.65:ℚ) | _ => 0.2)
          ((1:ℚ)/2)).1 =
        (classifySentenceSim
          (fun c : Category => match c with | Category.Wisdom => (0.65:ℚ) | _ => 0.2)
          (3/5)).1) ∧
    ((classifySentenceSim
          (fun c : Category => match c with | Category.Wisdom => (0.65:ℚ) | _ => 0.2)
          ((1:ℚ)/2)).1 = Category.Hunch →
      (classifySentenceSim
          (fun c : Category => match c with | Category.Wisdom => (0.65:ℚ) | _ => 0.2)
          (3/5)).1 = Category.Hunch)) :=
  ⟨by with_unfolding_all decide,
    c8_threshold_monotone _ _ _ (by with_unfolding_all decide)⟩

/-- Claim C6: if the embedding provider fails on a sentence, the
per-sentence classifier returns exactly `(Hunch, 0.3)`; totality of
`classifySentenceR` models that no exception propagates. -/
theorem c6_provider_error_degrades (prov : String → Except Unit (List ℝ))
    (anchors : Category → List ℝ) (s : String) (t : ℝ)
    (h : prov s = Except.error ()) :
    classifySentenceR prov anchors s t = (Category.Hunch, 0.3) := by
  unfold classifySentenceR
  rw [h]

/-- Witness for C6: a provider that always fails yields `(Hunch, 0.3)`. -/
theorem c6_provider_error_degrades_witness :
    ((fun _ : String => (Except.error () : Except Unit (List ℝ))) "anything" =
      Except.error ()) ∧
    classifySentenceR (fun _ => Except.error ()) (fun _ => []) "anything" 0.3 =
      (Category.Hunch, 0.3) :=
  ⟨rfl, c6_provider_error_degrades _ _ _ _ rfl⟩

/-- Claim C1: the fallback-mode scenario on the three-sentence input:
Wisdom 0.7, Nudge 0.6, Spell 0.6, three total sentences, zero
high-confidence items, dominant category Wisdom. -/
theorem c1_fallback_scenario :
    fallbackClassification c1Text =
      ⟨[(Category.Hunch, []),
        (Category.Wisdom,
          [⟨"The data clearly shows improvement", 0.7, "keyword_fallback"⟩]),
        (Category.Nudge,
          [⟨"We should implement this immediately", 0.6, "keyword_fallback"⟩]),
        (Category.Spell,
          [⟨"Imagine a magical new campaign.", 0.6, "keyword_fallback"⟩])],
       some
         { distribution :=
             [(Category.Hunch, ⟨0, 0⟩), (Category.Wisdom, ⟨1, 33.3⟩),
              (Category.Nudge, ⟨1, 33.3⟩), (Category.Spell, ⟨1, 33.3⟩)]
           confidenceStats :=
             [(Category.Hunch, ⟨0, 0, 0⟩), (Category.Wisdom, ⟨0.7, 0.7, 0.7⟩),
              (Category.Nudge, ⟨0.6, 0.6, 0.6⟩), (Category.Spell, ⟨0.6, 0.6, 0.6⟩)]
           dominantCategory := Category.Wisdom
           totalSentences := 3
           highConfidenceItems := 0 }⟩ := by
  with_unfolding_all decide

/-- Claim C3 counterexample: for the input `"abcdefghij"`, the single split
fragment has trimmed length exactly 10, yet the segmenter excludes it (the
code keeps only fragments of trimmed length strictly greater than 10), so
the claimed "every fragment whose trimmed length is 10 or more appears in
the output" is false. -/
theorem c3_length_boundary_cex :
    rawFragments "abcdefghij" = ["abcdefghij".data] ∧
    (pyStrip "abcdefghij".data).length = 10 ∧
    splitSentences "abcdefghij" = [] := by
  with_unfolding_all decide

/-- Claim C3 (amended): a string appears in the segmenter output exactly
when it is the trimmed form of a split fragment and its length is strictly
greater than 10; fragments of trimmed length 10 or less are discarded. -/
theorem c3_length_filter (text s : String) :
    s ∈ splitSentences text ↔
      ∃ f ∈ rawFragments text, String.mk (pyStrip f) = s ∧ 10 < s.length := by
  unfold splitSentences
  simp only [List.mem_filter, List.mem_map, decide_eq_true_eq]
  constructor
  · rintro ⟨⟨f, hf, rfl⟩, hl⟩
    exact ⟨f, hf, rfl, hl⟩
  · rintro ⟨f, hf, rfl, hl⟩
    exact ⟨⟨f, hf, rfl⟩, hl⟩

theorem headMatch_iff (needle hay : List Char) :
    headMatch needle hay = true ↔ ∃ rest, hay = needle ++ rest := by
  induction needle generalizing hay with
  | nil => simp [headMatch]
  | cons a as ih =>
    cases hay with
    | nil => simp [headMatch]
    | cons b bs =>
      simp only [headMatch, Bool.and_eq_true, beq_iff_eq, ih, List.cons_append,
        List.cons.injEq]
      constructor
      · rintro ⟨rfl, rest, rfl⟩
        exact ⟨rest, rfl, rfl⟩
      · rintro ⟨rest, h1, h2⟩
        exact ⟨h1.symm, rest, h2⟩

theorem listContains_iff (hay needle : List Char) :
    listContains hay needle = true ↔ ∃ pre post, hay = pre ++ needle ++ post := by
  induction hay with
  | nil =>
    simp only [listContains, List.isEmpty_iff]
    constructor
    · rintro rfl
      exact ⟨[], [], rfl⟩
    · rintro ⟨pre, post, hp⟩
      have h2 : pre ++ needle ++ post = [] := hp.symm
      simp only [List.append_eq_nil] at h2
      exact h2.1.2
  | cons h t ih =>
    simp only [listContains, Bool.or_eq_true, ih, headMatch_iff]
    constructor
    · rintro (⟨rest, hr⟩ | ⟨pre, post, hp⟩)
      · exact ⟨[], rest, by simpa using hr⟩
      · exact ⟨h :: pre, post, by simp [hp]⟩
    · rintro ⟨pre, post, hp⟩
      cases pre with
      | nil => exact Or.inl ⟨post, by simpa using hp⟩
      | cons p ps =>
        right
        refine ⟨ps, post, ?_⟩
        have h2 := hp
        simp only [List.cons_append, List.cons.injEq] at h2
        exact h2.2

/-- Claim C10: fallback keyword matching is substring containment on the
lowercased sentence, not whole-word membership: any sentence (of the length
the pipeline classifies) whose lowercase form contains some Nudge keyword
as a substring anywhere, and no Wisdom keyword, is classified
`(Nudge, 0.6)`. -/
theorem c10_substring_matching (s : String)
    (hlen : 10 ≤ (pyStrip s.data).length)
    (hw : anyKeyword wisdomKeywords (pyLower s) = false)
    (hn : ∃ w ∈ nudgeKeywords, ∃ pre post, (pyLower s).data = pre ++ w.data ++ post) :
    fallbackClassifySentence s = (Category.Nudge, 0.6) := by
  obtain ⟨w, hwmem, pre, post, hsplit⟩ := hn
  have hcontains : listContains (pyLower s).data w.data = true :=
    (listContains_iff _ _).mpr ⟨pre, post, hsplit⟩
  have hany : anyKeyword nudgeKeywords (pyLower s) = true := by
    unfold anyKeyword
    rw [List.any_eq_true]
    exact ⟨w, hwmem, hcontains⟩
  simp only [fallbackClassifySentence, hw, hany]
  rfl

/-- Witness for C10: the keyword `do` occurs only inside the longer word
`down`, there is no Wisdom keyword, and the sentence is classified
`(Nudge, 0.6)`. -/
theorem c10_substring_matching_witness :
    (10 ≤ (pyStrip "Everything slowed down here".data).length) ∧
    (anyKeyword wisdomKeywords (pyLower "Everything slowed down here") = false) ∧
    ("do" ∈ nudgeKeywords) ∧
    ((pyLower "Everything slowed down here").data =
      "everything slowed ".data ++ "do".data ++ "wn here".data) ∧
    fallbackClassifySentence "Everything slowed down here" = (Category.Nudge, 0.6) := by
  refine ⟨by with_unfolding_all decide, by with_unfolding_all decide,
    by with_unfolding_all decide, by with_unfolding_all decide, ?_⟩
  exact c10_substring_matching _ (by with_unfolding_all decide)
    (by with_unfolding_all decide)
    ⟨"do", by with_unfolding_all decide,
      "everything slowed ".data, "wn here".data, by with_unfolding_all decide⟩

/-- Claim C5 counterexample: with the out-of-range threshold 1.5 the
pipeline produces an ordinary classification result (there is no
InvalidInput error channel at all), and the out-of-range value is used
as the working threshold, forcing the sentence to `Hunch`. -/
theorem c5_no_validation_cex :
    classifyText
        (BrainMode.mlMode fun _ => Except.ok fun _ => (1/2 : ℚ))
        "this sentence is long enough" (some (3/2)) =
      ⟨[(Category.Hunch,
          [⟨"this sentence is long enough", 1/2, "sentence_transformer"⟩])],
        some
          { distribution := [(Category.Hunch, ⟨1, 100⟩)]
            confidenceStats := [(Category.Hunch, ⟨0.5, 0.5, 0.5⟩)]
            dominantCategory := Category.Hunch
            totalSentences := 1
            highConfidenceItems := 0 }⟩ := by
  with_unfolding_all decide

/-- Claim C5 (amended): `classify_text` performs no threshold validation:
a nonzero threshold, in range or not, is passed through unchanged to the
similarity pipeline, while a threshold of 0 is Python-falsy and is
silently replaced by the default 0.3 (the same behavior as passing no
threshold); no error is surfaced in either case. -/
theorem c5_no_threshold_validation
    (prov : String → Except Unit (Category → ℚ)) (text : String) (t : ℚ)
    (ht : t ≠ 0) :
    classifyText (BrainMode.mlMode prov) text (some t) = classifyTextML prov text t ∧
    classifyText (BrainMode.mlMode prov) text (some 0) =
      classifyText (BrainMode.mlMode prov) text none := by
  constructor
  · simp [classifyText, effThreshold, ht]
  · simp [classifyText, effThreshold]

/-- Witness for C5 (amended): the out-of-range threshold 1.5 is nonzero
and is used unchanged. -/
theorem c5_no_threshold_validation_witness :
    ((3/2 : ℚ) ≠ 0) ∧
    (classifyText (BrainMode.mlMode fun _ => Except.ok fun _ => (1/2 : ℚ))
        "this sentence is long enough" (some (3/2)) =
      classifyTextML (fun _ => Except.ok fun _ => (1/2 : ℚ))
        "this sentence is long enough" (3/2) ∧
    classifyText (BrainMode.mlMode fun _ => Except.ok fun _ => (1/2 : ℚ))
        "this sentence is long enough" (some 0) =
      classifyText (BrainMode.mlMode fun _ => Except.ok fun _ => (1/2 : ℚ))
        "this sentence is long enough" none) :=
  ⟨by with_unfolding_all decide,
    c5_no_threshold_validation _ _ _ (by with_unfolding_all decide)⟩

/-- Claim C7 counterexample: in similarity mode the dominant-category
tie-break follows the insertion order of `routed_content` (the order in
which categories were first produced), not the fixed enumeration order:
with a tie of one Spell and one Wisdom sentence, classified in that order,
the code reports `Spell`, while the first tied category in enumeration
order is `Wisdom`. -/
theorem c7_insertion_order_cex :
    (classifyText
        (BrainMode.mlMode fun s =>
          Except.ok fun c =>
            if s = "Alpha beta gamma delta one" then
              (match c with | Category.Spell => (9/10 : ℚ) | _ => 1/10)
            else
              (match c with | Category.Wisdom => (9/10 : ℚ) | _ => 1/10))
        "Alpha beta gamma delta one! Epsilon zeta eta theta two." (some (3/10)) =
      ⟨[(Category.Spell,
          [⟨"Alpha beta gamma delta one", 9/10, "sentence_transformer"⟩]),
        (Category.Wisdom,
          [⟨"Epsilon zeta eta theta two.", 9/10, "sentence_transformer"⟩])],
        some
          { distribution := [(Category.Spell, ⟨1, 50⟩), (Category.Wisdom, ⟨1, 50⟩)]
            confidenceStats :=
              [(Category.Spell, ⟨9/10, 9/10, 9/10⟩),
               (Category.Wisdom, ⟨9/10, 9/10, 9/10⟩)]
            dominantCategory := Category.Spell
            totalSentences := 2
            highConfidenceItems := 2 }⟩) ∧
    enumFirstMaxCat
        (countIn
          [(Category.Spell,
             [⟨"Alpha beta gamma delta one", 9/10, "sentence_transformer"⟩]),
           (Category.Wisdom,
             [⟨"Epsilon zeta eta theta two.", 9/10, "sentence_transformer"⟩])]) =
      Category.Wisdom ∧
    Category.Spell ≠ Category.Wisdom := by
  refine ⟨?_, ?_, ?_⟩
  · with_unfolding_all decide
  · with_unfolding_all decide
  · with_unfolding_all decide

theorem ratFloor_eq_intFloor (q : ℚ) : Rat.floor q = ⌊q⌋ :=
  (Rat.floor_def' q).trans Rat.floor_def.symm

theorem roundHalfEven_sub_abs_le (q : ℚ) : |(roundHalfEven q : ℚ) - q| ≤ 1/2 := by
  unfold roundHalfEven
  simp only [ratFloor_eq_intFloor]
  have h1 : ((⌊q⌋ : ℤ) : ℚ) ≤ q := Int.floor_le q
  have h2 : q < ((⌊q⌋ : ℤ) : ℚ) + 1 := Int.lt_floor_add_one q
  split_ifs with hc1 hc2 hc3 <;> rw [abs_le] <;> constructor <;> push_cast <;> linarith

theorem round1_sub_abs_le (q : ℚ) : |round1 q - q| ≤ 1/10 := by
  unfold round1
  have h := roundHalfEven_sub_abs_le (q * 10)
  rw [abs_le] at h ⊢
  constructor <;> [linarith; linarith]

theorem sum_map_abs_sub_le {β : Type} (f g : β → ℚ) (b : ℚ)
    (hb : ∀ a, |f a - g a| ≤ b) :
    ∀ l : List β, |(l.map f).sum - (l.map g).sum| ≤ l.length * b := by
  intro l
  induction l with
  | nil => simp
  | cons x xs ih =>
    simp only [List.map_cons, List.sum_cons, List.length_cons]
    have h1 := hb x
    have key : f x + (xs.map f).sum - (g x + (xs.map g).sum) =
        (f x - g x) + ((xs.map f).sum - (xs.map g).sum) := by ring
    rw [key]
    refine le_trans (abs_add _ _) ?_
    have : ((xs.length + 1 : ℕ) : ℚ) * b = b + (xs.length : ℚ) * b := by push_cast; ring
    rw [this]
    exact add_le_add h1 ih

theorem sum_exact_percent (rc : Routed) (h : totalItems rc ≠ 0) :
    (rc.map fun e => (e.2.length : ℚ) / (totalItems rc : ℚ) * 100).sum = 100 := by
  have hT : ((totalItems rc : ℕ) : ℚ) ≠ 0 := Nat.cast_ne_zero.mpr h
  have hrw : ∀ e ∈ rc, (e.2.length : ℚ) / (totalItems rc : ℚ) * 100 =
      (e.2.length : ℚ) * (100 / (totalItems rc : ℚ)) := fun e _ => by ring
  rw [List.map_congr_left hrw, List.sum_map_mul_right]
  have hsum : (rc.map fun e => ((e.2.length : ℕ) : ℚ)).sum = ((totalItems rc : ℕ) : ℚ) := by
    unfold totalItems
    rw [Nat.cast_list_sum, List.map_map]
    rfl
  rw [hsum]
  field_simp

/-- Claim C9: for every nonempty batch, the per-category percentages in the
analytics report sum to 100 up to a rounding error of at most 0.1 per
reported category. -/
theorem c9_percentages_sum (rc : Routed) (r : Report)
    (h : generateAnalytics rc = some r) :
    |(r.distribution.map fun e => e.2.percentage).sum - 100| ≤
      (r.distribution.length : ℚ) * (1/10) := by
  by_cases h0 : totalItems rc = 0
  · simp [generateAnalytics, h0] at h
  · simp only [generateAnalytics, if_neg h0] at h
    injection h with h
    subst h
    simp only [List.map_map, List.length_map]
    have hb : ∀ e : Category × List Item,
        |(round1 ((e.2.length : ℚ) / (totalItems rc : ℚ) * 100)) -
          ((e.2.length : ℚ) / (totalItems rc : ℚ) * 100)| ≤ 1/10 :=
      fun e => round1_sub_abs_le _
    have hmain := sum_map_abs_sub_le
      (fun e : Category × List Item => round1 ((e.2.length : ℚ) / (totalItems rc : ℚ) * 100))
      (fun e : Category × List Item => (e.2.length : ℚ) / (totalItems rc : ℚ) * 100)
      (1/10) hb rc
    rw [sum_exact_percent rc h0] at hmain
    exact hmain

/-- Witness for C9: a one-category batch whose single percentage is 100. -/
theorem c9_percentages_sum_witness :
    (generateAnalytics [(Category.Hunch, [⟨"tiny text entry", 1/2, "keyword_fallback"⟩])] =
      some
        { distribution := [(Category.Hunch, ⟨1, 100⟩)]
          confidenceStats := [(Category.Hunch, ⟨1/2, 1/2, 1/2⟩)]
          dominantCategory := Category.Hunch
          totalSentences := 1
          highConfidenceItems := 0 }) ∧
    |((Report.mk [(Category.Hunch, ⟨1, 100⟩)] [(Category.Hunch, ⟨1/2, 1/2, 1/2⟩)]
          Category.Hunch 1 0).distribution.map fun e => e.2.percentage).sum - 100| ≤
      (((Report.mk [(Category.Hunch, ⟨1, 100⟩)] [(Category.Hunch, ⟨1/2, 1/2, 1/2⟩)]
          Category.Hunch 1 0).distribution.length : ℚ)) * (1/10) :=
  ⟨by with_unfolding_all decide,
    c9_percentages_sum [(Category.Hunch, [⟨"tiny text entry", 1/2, "keyword_fallback"⟩])] _
      (by with_unfolding_all decide)⟩

theorem dotR_self_nonneg (v : List ℝ) : 0 ≤ dotR v v := by
  induction v with
  | nil => exact le_refl 0
  | cons x xs ih =>
    have e : dotR (x :: xs) (x :: xs) = x * x + dotR xs xs := rfl
    rw [e]
    nlinarith [mul_self_nonneg x]

theorem dotR_sq_le (u : List ℝ) : ∀ v : List ℝ, (dotR u v) ^ 2 ≤ dotR u u * dotR v v := by
  induction u with
  | nil =>
    intro v
    have e : dotR [] v = 0 := rfl
    have e2 : dotR ([] : List ℝ) [] = 0 := rfl
    rw [e, e2]
    simp
  | cons x xs ih =>
    intro v
    cases v with
    | nil =>
      have e : dotR (x :: xs) [] = 0 := rfl
      have e2 : dotR ([] : List ℝ) [] = 0 := rfl
      rw [e, e2]
      simp
    | cons y ys =>
      have e1 : dotR (x :: xs) (y :: ys) = x * y + dotR xs ys := rfl
      have e2 : dotR (x :: xs) (x :: xs) = x * x + dotR xs xs := rfl
      have e3 : dotR (y :: ys) (y :: ys) = y * y + dotR ys ys := rfl
      rw [e1, e2, e3]
      have hA := dotR_self_nonneg xs
      have hB := dotR_self_nonneg ys
      have hd := ih ys
      rcases eq_or_lt_of_le hB with hB0 | hBpos
      · have ha0 : dotR xs ys = 0 := by nlinarith [sq_nonneg (dotR xs ys)]
        rw [ha0, ← hB0]
        nlinarith [mul_nonneg hA (mul_self_nonneg y)]
      · nlinarith [sq_nonneg (x * dotR ys ys - y * dotR xs ys),
          mul_nonneg (add_nonneg (mul_self_nonneg y) hB)
            (sub_nonneg.mpr hd), hBpos]

theorem cosineSim_bounds (u v : List ℝ) : -1 ≤ cosineSim u v ∧ cosineSim u v ≤ 1 := by
  unfold cosineSim
  have hDnn : 0 ≤ Real.sqrt (dotR u u) * Real.sqrt (dotR v v) :=
    mul_nonneg (Real.sqrt_nonneg _) (Real.sqrt_nonneg _)
  rcases eq_or_lt_of_le hDnn with hD0 | hDpos
  · rw [← hD0, div_zero]
    norm_num
  · have habs : |dotR u v| ≤ Real.sqrt (dotR u u) * Real.sqrt (dotR v v) := by
      have h1 : (dotR u v) ^ 2 ≤ dotR u u * dotR v v := dotR_sq_le u v
      have h2 : Real.sqrt ((dotR u v) ^ 2) ≤ Real.sqrt (dotR u u * dotR v v) :=
        Real.sqrt_le_sqrt h1
      rw [Real.sqrt_sq_eq_abs, Real.sqrt_mul (dotR_self_nonneg u)] at h2
      exact h2
    rw [abs_le] at habs
    constructor
    · rw [le_div_iff hDpos]
      linarith [habs.1]
    · rw [div_le_one hDpos]
      exact habs.2

theorem snd_classifySentenceSim {α : Type} [LinearOrder α] (sims : Category → α) (t : α) :
    (classifySentenceSim sims t).2 = sims (bestCategory sims) := by
  simp only [classifySentenceSim]
  split_ifs <;> rfl

/-- Claim C4 counterexample: a vector sequence the embedding provider can
return (sentence embedding `[1, 0]`, every anchor embedding `[-1, 0]`)
makes every cosine similarity equal to -1, and the per-sentence
classification then returns confidence -1, which lies outside `[0, 1]`. -/
theorem c4_negative_confidence_cex :
    classifySentenceR (fun _ => Except.ok [1, 0]) (fun _ => [-1, 0])
        "a sufficiently long sentence" (3/10) = (Category.Hunch, -1) ∧
    ((-1 : ℝ) < 0) := by
  constructor
  · have hcos : cosineSim [(1:ℝ), 0] [(-1:ℝ), 0] = -1 := by
      unfold cosineSim
      have e1 : dotR [(1:ℝ), 0] [(-1:ℝ), 0] = 1 * (-1) + (0 * 0 + 0) := rfl
      have e2 : dotR [(1:ℝ), 0] [(1:ℝ), 0] = 1 * 1 + (0 * 0 + 0) := rfl
      have e3 : dotR [(-1:ℝ), 0] [(-1:ℝ), 0] = (-1) * (-1) + (0 * 0 + 0) := rfl
      rw [e1, e2, e3]
      norm_num
    have hred : classifySentenceR (fun _ => Except.ok [1, 0]) (fun _ => [-1, 0])
        "a sufficiently long sentence" (3/10) =
        classifySentenceSim (fun _ : Category => cosineSim [(1:ℝ), 0] [(-1:ℝ), 0]) (3/10) := rfl
    rw [hred]
    have hsim : (fun _ : Category => cosineSim [(1:ℝ), 0] [(-1:ℝ), 0]) =
        fun _ : Category => (-1 : ℝ) := funext fun _ => hcos
    rw [hsim]
    simp only [classifySentenceSim, bestCategory, List.foldl_cons, List.foldl_nil]
    norm_num
  · norm_num

/-- Claim C4 (amended): for every input sentence, threshold, anchor
embeddings and every vector sequence the provider may return, the
confidence of the per-sentence classification lies within `[-1, 1]` — the
cosine similarity range; it is not clamped into `[0, 1]` and can be
negative. -/
theorem c4_confidence_range (prov : String → Except Unit (List ℝ))
    (anchors : Category → List ℝ) (s : String) (t : ℝ) :
    -1 ≤ (classifySentenceR prov anchors s t).2 ∧
      (classifySentenceR prov anchors s t).2 ≤ 1 := by
  cases hp : prov s with
  | error e =>
    simp only [classifySentenceR, hp]
    norm_num
  | ok emb =>
    simp only [classifySentenceR, hp]
    rw [snd_classifySentenceSim]
    exact cosineSim_bounds emb (anchors (bestCategory fun c => cosineSim emb (anchors c)))

theorem addItem_shape (h w n sp : List Item) (c : Category) (it : Item) :
    ∃ h2 w2 n2 sp2 : List Item,
      addItem [(Category.Hunch, h), (Category.Wisdom, w), (Category.Nudge, n),
          (Category.Spell, sp)] c it =
        [(Category.Hunch, h2), (Category.Wisdom, w2), (Category.Nudge, n2),
          (Category.Spell, sp2)] := by
  cases c
  · exact ⟨h ++ [it], w, n, sp, by simp [addItem]⟩
  · exact ⟨h, w ++ [it], n, sp, by simp [addItem]⟩
  · exact ⟨h, w, n ++ [it], sp, by simp [addItem]⟩
  · exact ⟨h, w, n, sp ++ [it], by simp [addItem]⟩

theorem foldl_fallbackStep_shape (l : List String) :
    ∀ h w n sp : List Item, ∃ h2 w2 n2 sp2 : List Item,
      l.foldl fallbackStep
          [(Category.Hunch, h), (Category.Wisdom, w), (Category.Nudge, n),
            (Category.Spell, sp)] =
        [(Category.Hunch, h2), (Category.Wisdom, w2), (Category.Nudge, n2),
          (Category.Spell, sp2)] := by
  induction l with
  | nil => intro h w n sp; exact ⟨h, w, n, sp, rfl⟩
  | cons s t ih =>
    intro h w n sp
    rw [List.foldl_cons]
    simp only [fallbackStep]
    by_cases hshort : (pyStrip s.data).length < 10
    · rw [if_pos hshort]
      exact ih h w n sp
    · rw [if_neg hshort]
      obtain ⟨h2, w2, n2, sp2, heq⟩ := addItem_shape h w n sp
        (fallbackClassifySentence s).1
        ⟨String.mk (pyStrip s.data), (fallbackClassifySentence s).2, "keyword_fallback"⟩
      rw [heq]
      exact ih h2 w2 n2 sp2

theorem countIn_shape (h w n sp : List Item) (x : Category) :
    countIn [(Category.Hunch, h), (Category.Wisdom, w), (Category.Nudge, n),
        (Category.Spell, sp)] x =
      (match x with
       | Category.Hunch => h.length
       | Category.Wisdom => w.length
       | Category.Nudge => n.length
       | Category.Spell => sp.length) := by
  cases x <;> simp [countIn, List.filter_cons, List.filter_nil]

theorem dominantOf_four (a b c d : Nat) (pa pb pc pd : ℚ) :
    dominantOf [(Category.Hunch, ⟨a, pa⟩), (Category.Wisdom, ⟨b, pb⟩),
        (Category.Nudge, ⟨c, pc⟩), (Category.Spell, ⟨d, pd⟩)] =
      enumFirstMaxCat (fun x =>
        match x with
        | Category.Hunch => a
        | Category.Wisdom => b
        | Category.Nudge => c
        | Category.Spell => d) := by
  unfold dominantOf enumFirstMaxCat maxCount
  simp only [List.foldl_cons, List.foldl_nil,
    apply_ite (fun p : Category × CatDist => p.2.count),
    apply_ite (fun p : Category × CatDist => p.1)]
  dsimp only
  split_ifs <;> first | rfl | omega

/-- Claim C7 (amended): the dominant-category tie-break follows the
insertion order of `routed_content`; in fallback mode the dict is
pre-seeded with all four categories in enumeration order, so there the
reported dominant category is the first category in the fixed order
`Hunch, Wisdom, Nudge, Spell` attaining the maximal count. -/
theorem c7_fallback_enum_order (text : String) (r : Report)
    (h : (fallbackClassification text).analytics = some r) :
    r.dominantCategory =
      enumFirstMaxCat (countIn (fallbackClassification text).routedContent) := by
  obtain ⟨h2, w2, n2, sp2, hshape⟩ :=
    foldl_fallbackStep_shape (splitSentences text) [] [] [] []
  have hroute : (fallbackClassification text).routedContent =
      [(Category.Hunch, h2), (Category.Wisdom, w2), (Category.Nudge, n2),
        (Category.Spell, sp2)] := by
    simp only [fallbackClassification]
    exact hshape
  have hanalytics : (fallbackClassification text).analytics =
      generateAnalytics [(Category.Hunch, h2), (Category.Wisdom, w2),
        (Category.Nudge, n2), (Category.Spell, sp2)] := by
    simp only [fallbackClassification, fallbackSeed]
    rw [hshape]
  rw [hanalytics] at h
  rw [hroute]
  by_cases h0 : totalItems [(Category.Hunch, h2), (Category.Wisdom, w2),
      (Category.Nudge, n2), (Category.Spell, sp2)] = 0
  · simp [generateAnalytics, h0] at h
  · simp only [generateAnalytics, if_neg h0] at h
    injection h with h
    subst h
    simp only [List.map_cons, List.map_nil]
    have hcount : ∀ x, countIn [(Category.Hunch, h2), (Category.Wisdom, w2),
        (Category.Nudge, n2), (Category.Spell, sp2)] x =
        (match x with
         | Category.Hunch => h2.length
         | Category.Wisdom => w2.length
         | Category.Nudge => n2.length
         | Category.Spell => sp2.length) := countIn_shape h2 w2 n2 sp2
    rw [funext hcount]
    exact dominantOf_four h2.length w2.length n2.length sp2.length _ _ _ _

/-- Witness for C7 (amended): a fallback batch with a Nudge-Spell tie is
reported as `Nudge`, the first tied category in enumeration order. -/
theorem c7_fallback_enum_order_witness :
    ((fallbackClassification "Imagine something creative today. We should act now quickly.").analytics =
      some
        { distribution :=
            [(Category.Hunch, ⟨0, 0⟩), (Category.Wisdom, ⟨0, 0⟩),
             (Category.Nudge, ⟨1, 50⟩), (Category.Spell, ⟨1, 50⟩)]
          confidenceStats :=
            [(Category.Hunch, ⟨0, 0, 0⟩), (Category.Wisdom, ⟨0, 0, 0⟩),
             (Category.Nudge, ⟨0.6, 0.6, 0.6⟩), (Category.Spell, ⟨0.6, 0.6, 0.6⟩)]
          dominantCategory := Category.Nudge
          totalSentences := 2
          highConfidenceItems := 0 }) ∧
    (Report.mk
        [(Category.Hunch, ⟨0, 0⟩), (Category.Wisdom, ⟨0, 0⟩),
         (Category.Nudge, ⟨1, 50⟩), (Category.Spell, ⟨1, 50⟩)]
        [(Category.Hunch, ⟨0, 0, 0⟩), (Category.Wisdom, ⟨0, 0, 0⟩),
         (Category.Nudge, ⟨0.6, 0.6, 0.6⟩), (Category.Spell, ⟨0.6, 0.6, 0.6⟩)]
        Category.Nudge 2 0).dominantCategory =
      enumFirstMaxCat
        (countIn (fallbackClassification
          "Imagine something creative today. We should act now quickly.").routedContent) :=
  ⟨by with_unfolding_all decide,
    c7_fallback_enum_order "Imagine something creative today. We should act now quickly." _
      (by with_unfolding_all decide)⟩

end Thinkerbell
